import Mathlib

/-!
Verification development for the `energytest` measurement framework
(`experiment.py`, `utils.py`, `sensors.py`).

The Python modules are shallowly embedded: Python floats become `ℚ`,
Python ints become `ℤ`/`ℕ`, the in-process record list and the shared
profile directory become explicit state, raised failures become
`Except`, and CSV files become optional lists of rows (`none` = the
file does not exist yet).
-/

namespace Energytest

/-! ### Records (`utils.py`, `FunctionProfiler`) -/

/-- One profile record, as built by `FunctionProfiler.profile`:
`{'func_name': ..., 'energy_j': ..., 'elapsed_ns': ...}`. -/
structure ProfileRecord where
  func_name : String
  energy_j : ℚ
  elapsed_ns : ℤ
deriving DecidableEq, Repr

/-- Process-wide configuration: the optional `ENERGYTEST_PROFILE_DIR`
environment variable read by `FunctionProfiler._get_profile_dir`. -/
structure ProfilerConfig where
  profileDir : Option String
deriving DecidableEq, Repr

/-- The record store: the in-process list `FunctionProfiler._records`
plus the contents of the shared profile directory.  A directory entry is
a file name paired with its parsed content (`none` = not valid JSON). -/
structure ProfilerState where
  records : List ProfileRecord
  dirFiles : List (String × Option ProfileRecord)
deriving DecidableEq, Repr

/-- `glob(os.path.join(profile_dir, "*.json"))` membership test: the file
name ends with `.json`. -/
def isJsonFile (name : String) : Bool :=
  List.isSuffixOf ".json".data name.data

/-- `FunctionProfiler.get_records`: collects records from memory and,
when a profile directory is configured, from every `*.json` file in it
(files that fail to parse are skipped).  The state is returned unchanged
because the Python method only reads. -/
def FunctionProfiler.get_records (cfg : ProfilerConfig) (st : ProfilerState) :
    List ProfileRecord × ProfilerState :=
  let fileRecords : List ProfileRecord :=
    match cfg.profileDir with
    | some _ => (st.dirFiles.filter (fun f => isJsonFile f.1)).filterMap (fun f => f.2)
    | none => []
  (st.records ++ fileRecords, st)

/-- `FunctionProfiler.clear`: empties `_records` and, when a profile
directory is configured, removes every `*.json` file in it. -/
def FunctionProfiler.clear (cfg : ProfilerConfig) (st : ProfilerState) : ProfilerState :=
  let st1 : ProfilerState := { st with records := [] }
  match cfg.profileDir with
  | some _ => { st1 with dirFiles := st1.dirFiles.filter (fun f => !(isJsonFile f.1)) }
  | none => st1

/-- The record file name `f"prof_{pid}_{ts}.json"` built inside the
wrapper of `FunctionProfiler.profile`. -/
def mkProfFilename (pid : Nat) (ts : String) : String :=
  "prof_" ++ Nat.repr pid ++ "_" ++ ts ++ ".json"

/-- The timestamp component `f"{time.time():.6f}".replace('.', '')`:
the integral seconds in decimal followed by exactly six zero-padded
decimal digits of the microsecond fraction. -/
def mkTimestamp (sec : Nat) (micro : Fin 1000000) : String :=
  Nat.repr sec ++ (Nat.repr micro.val).leftpad 6 '0'

/-- The record-emission step of the wrapper in `FunctionProfiler.profile`:
if a profile directory is configured the record is serialized to a fresh
uniquely-named file in it, otherwise it is appended to `_records`. -/
def FunctionProfiler.emitRecord (cfg : ProfilerConfig) (pid : Nat) (ts : String)
    (rec : ProfileRecord) (st : ProfilerState) : ProfilerState :=
  match cfg.profileDir with
  | some _ => { st with dirFiles := st.dirFiles ++ [(mkProfFilename pid ts, some rec)] }
  | none => { st with records := st.records ++ [rec] }

/-- One invocation of the wrapper produced by `FunctionProfiler.profile f`:
`outcome` is what `f(*args, **kwargs)` does (returns a value or raises),
`energy`/`elapsed` are the sensor readings around the call.  On success a
record is built and emitted; a raised failure propagates with no record. -/
def FunctionProfiler.profiledCall {ε β : Type} (cfg : ProfilerConfig) (pid : Nat) (ts : String)
    (fname : String) (outcome : Except ε β) (energy : ℚ) (elapsed : ℤ)
    (st : ProfilerState) : ProfilerState × Except ε β :=
  match outcome with
  | .error e => (st, .error e)
  | .ok v => (FunctionProfiler.emitRecord cfg pid ts ⟨fname, energy, elapsed⟩ st, .ok v)

/-! ### Scoped energy capture (`sensors.py`, `EnergySensor.__exit__`) -/

/-- The `pyRAPL` measurement result: per-domain micro-joule readings for
the processor package and the memory controller; either list may be
absent (`getattr(..., 'pkg', []) or []`). -/
structure RaplResult where
  pkg : Option (List ℚ)
  dram : Option (List ℚ)
deriving DecidableEq, Repr

/-- `EnergySensor.__exit__`: sums all available domain readings in
micro-joules, warns when the total is exactly zero, and stores the total
converted to joules.  Returns `(energy_j, warning emitted?)`. -/
def EnergySensor.exitEnergy (result : Option RaplResult) : ℚ × Bool :=
  let total_uj : ℚ :=
    match result with
    | none => 0
    | some r => (r.pkg.getD []).sum + (r.dram.getD []).sum
  (total_uj / 1000000, decide (total_uj = 0))

/-! ### Trial orchestrator and persister (`experiment.py`, `run_experiment`) -/

/-- One CSV cell: a string, a number, or the blank that `csv.writer`
produces for a `None` value (`result.get(k)` on a missing key). -/
inductive Cell where
  | str : String → Cell
  | num : ℚ → Cell
  | int : ℤ → Cell
  | blank : Cell
deriving DecidableEq, Repr

abbrev Row := List Cell

/-- What one `exp.run()` call returns: the ordered counter-delta mapping
(the dict built by `Experiment.run`, minus the `function_profiles` entry
that `Experiment.run` always adds last and `run_experiment` strips), and
the profile records harvested during the trial. -/
structure TrialResult where
  metrics : List (String × ℚ)
  profiles : List ProfileRecord
deriving DecidableEq, Repr

/-- One per-function accumulator cell of the `agg` dict. -/
structure AggData where
  count : Nat
  energy_j : ℚ
  elapsed_ns : ℤ
deriving DecidableEq, Repr

/-- One iteration of the aggregation loop body applied to an existing
entry: `count += 1; energy_j += e; elapsed_ns += t`. -/
def addRec (d : AggData) (rec : ProfileRecord) : AggData :=
  { count := d.count + 1
    energy_j := d.energy_j + rec.energy_j
    elapsed_ns := d.elapsed_ns + rec.elapsed_ns }

/-- One iteration of the `for rec in profiles` aggregation loop in
`run_experiment`: insert a zero entry when the name is new (at the end,
matching dict insertion order), then accumulate. -/
def aggStep (agg : List (String × AggData)) (rec : ProfileRecord) : List (String × AggData) :=
  if (agg.lookup rec.func_name).isSome then
    agg.map (fun p => if p.1 = rec.func_name then (p.1, addRec p.2 rec) else p)
  else
    agg ++ [(rec.func_name, addRec ⟨0, 0, 0⟩ rec)]

/-- The `agg` dict of `run_experiment` for one trial, as an ordered
association list (Python dicts preserve insertion order). -/
def aggregate (profiles : List ProfileRecord) : List (String × AggData) :=
  profiles.foldl aggStep []

/-- `result.get(k)` on a persisted trial: `run_uuid` was set by the
orchestrator, every other key is looked up in the counter-delta mapping,
and a missing key yields `None` (a blank CSV cell). -/
def resultCell (uuid : String) (metrics : List (String × ℚ)) (k : String) : Cell :=
  if k = "run_uuid" then Cell.str uuid
  else
    match metrics.lookup k with
    | some v => Cell.num v
    | none => Cell.blank

/-- `metric_keys`: the first trial's keys with `function_profiles` and
`run_uuid` removed and `run_uuid` re-inserted at position 0. -/
def metricKeys (r : TrialResult) : List String :=
  "run_uuid" :: r.metrics.map Prod.fst

/-- The metrics-table row `[result.get(k) for k in metric_keys]`. -/
def metricsRow (keys : List String) (uuid : String) (r : TrialResult) : Row :=
  keys.map (resultCell uuid r.metrics)

/-- The function-summary rows written for one trial, one per `agg` entry
in insertion order. -/
def summaryRows (uuid : String) (r : TrialResult) : List Row :=
  (aggregate r.profiles).map fun p =>
    [Cell.str uuid, Cell.str p.1, Cell.int p.2.count, Cell.num p.2.energy_j,
     Cell.int p.2.elapsed_ns]

/-- The call-detail rows written for one trial, one per record. -/
def detailRows (uuid : String) (r : TrialResult) : List Row :=
  r.profiles.map fun rec =>
    [Cell.str uuid, Cell.str rec.func_name, Cell.num rec.energy_j, Cell.int rec.elapsed_ns]

/-- The three destination files.  `none` = the file does not exist;
`some rows` = it exists and holds `rows`. -/
structure FilesState where
  metricsFile : Option (List Row)
  profilesFile : Option (List Row)
  detailedFile : Option (List Row)
deriving DecidableEq, Repr

/-- Header of the `_profiles` summary file. -/
def profilesHeader : Row :=
  [Cell.str "run_uuid", Cell.str "func_name", Cell.str "call_count",
   Cell.str "total_energy_j", Cell.str "total_elapsed_ns"]

/-- Header of the `_detailed_profiles` file. -/
def detailedHeader : Row :=
  [Cell.str "run_uuid", Cell.str "func_name", Cell.str "energy_j", Cell.str "elapsed_ns"]

/-- The persistence phase of `run_experiment` on the collected
`(run_uuid, result)` list: each file is opened in append mode when it
already exists and in write mode (with a header row) otherwise; the
metrics key list comes from the first result; then, per result in order,
one metrics row, the summary rows and the detail rows are written. -/
def persist (pairs : List (String × TrialResult)) (st : FilesState) : FilesState :=
  match pairs with
  | [] => st
  | (_, r0) :: _ =>
    let keys := metricKeys r0
    { metricsFile := some (st.metricsFile.getD [] ++
        (if st.metricsFile.isSome then [] else [keys.map Cell.str]) ++
        pairs.map (fun p => metricsRow keys p.1 p.2))
      profilesFile := some (st.profilesFile.getD [] ++
        (if st.profilesFile.isSome then [] else [profilesHeader]) ++
        pairs.flatMap (fun p => summaryRows p.1 p.2))
      detailedFile := some (st.detailedFile.getD [] ++
        (if st.detailedFile.isSome then [] else [detailedHeader]) ++
        pairs.flatMap (fun p => detailRows p.1 p.2)) }

/-- The trial loop of `run_experiment`: trial `i` either yields a result
(`exp i = .ok r`, tagged with the fresh uuid `uuids i`) or raises; a
raised failure aborts the loop and propagates. -/
def collectResults {ε : Type} (uuids : Nat → String) (exp : Nat → Except ε TrialResult) :
    Nat → Except ε (List (String × TrialResult))
  | 0 => .ok []
  | n + 1 =>
    match collectResults uuids exp n with
    | .error e => .error e
    | .ok rs =>
      match exp n with
      | .error e => .error e
      | .ok r => .ok (rs ++ [(uuids n, r)])

/-- `run_experiment(exp, runs)`: run the trial loop, then (unless it
raised, in which case no file is touched) persist all results; with zero
runs only a message is printed and no file is touched. -/
def run_experiment {ε : Type} (uuids : Nat → String) (exp : Nat → Except ε TrialResult)
    (runs : Nat) (st : FilesState) : Except ε Unit × FilesState :=
  match collectResults uuids exp runs with
  | .error e => (.error e, st)
  | .ok [] => (.ok (), st)
  | .ok pairs => (.ok (), persist pairs st)

/-! ### Helper lemmas -/

theorem filter_not_then_filter {α : Type} (p : α → Bool) (l : List α) :
    (l.filter (fun a => !(p a))).filter p = [] := by
  induction l with
  | nil => rfl
  | cons x xs ih =>
    by_cases hx : p x
    · simp [List.filter, hx, ih]
    · simp [List.filter, hx, ih]

/-- The records of `l` carrying function name `name` (the calls the
aggregation loop accumulates into `agg[name]`). -/
def recsFor (name : String) (l : List ProfileRecord) : List ProfileRecord :=
  l.filter (fun rec => rec.func_name == name)

theorem recsFor_cons_eq (name : String) (rec : ProfileRecord) (tl : List ProfileRecord)
    (h : rec.func_name = name) : recsFor name (rec :: tl) = rec :: recsFor name tl := by
  simp [recsFor, h]

theorem recsFor_cons_ne (name : String) (rec : ProfileRecord) (tl : List ProfileRecord)
    (h : ¬ rec.func_name = name) : recsFor name (rec :: tl) = recsFor name tl := by
  simp [recsFor, h]

theorem lookup_cons_self {β : Type} (k : String) (b : β) (tl : List (String × β)) :
    ((k, b) :: tl).lookup k = some b := by
  simp [List.lookup]

theorem lookup_cons_ne {β : Type} (k name : String) (b : β) (tl : List (String × β))
    (h : ¬ name = k) : ((k, b) :: tl).lookup name = tl.lookup name := by
  have hb : (name == k) = false := by simp [h]
  simp [List.lookup, hb]

theorem lookup_map_addRec (agg : List (String × AggData)) (rec : ProfileRecord)
    (name : String) :
    (agg.map (fun p => if p.1 = rec.func_name then (p.1, addRec p.2 rec) else p)).lookup name =
      if name = rec.func_name then (agg.lookup name).map (fun d => addRec d rec)
      else agg.lookup name := by
  induction agg with
  | nil => by_cases h : name = rec.func_name <;> simp [List.lookup, h]
  | cons hd tl ih =>
    obtain ⟨k, v⟩ := hd
    simp only [List.map_cons]
    by_cases h1 : k = rec.func_name
    · rw [if_pos (show (k, v).1 = rec.func_name from h1)]
      by_cases h2 : name = rec.func_name
      · have hk : name = k := h2.trans h1.symm
        subst hk
        rw [lookup_cons_self, if_pos h2, lookup_cons_self]
        rfl
      · have hk : ¬ name = k := fun hc => h2 (hc.trans h1)
        rw [lookup_cons_ne _ _ _ _ hk, ih, if_neg h2, if_neg h2,
          lookup_cons_ne _ _ _ _ hk]
    · rw [if_neg (show ¬ (k, v).1 = rec.func_name from h1)]
      by_cases h2 : name = k
      · subst h2
        rw [lookup_cons_self, if_neg h1, lookup_cons_self]
      · rw [lookup_cons_ne _ _ _ _ h2, ih, lookup_cons_ne _ _ _ _ h2]

theorem lookup_append_single (agg : List (String × AggData)) (key name : String)
    (d : AggData) :
    (agg ++ [(key, d)]).lookup name =
      (agg.lookup name).or (if name = key then some d else none) := by
  induction agg with
  | nil =>
    by_cases h : name = key
    · subst h
      rw [List.nil_append, lookup_cons_self]
      simp [List.lookup]
    · rw [List.nil_append, lookup_cons_ne _ _ _ _ h]
      simp [List.lookup, h]
  | cons hd tl ih =>
    obtain ⟨k, v⟩ := hd
    by_cases h : name = k
    · subst h
      rw [List.cons_append, lookup_cons_self, lookup_cons_self]
      rfl
    · rw [List.cons_append, lookup_cons_ne _ _ _ _ h, lookup_cons_ne _ _ _ _ h, ih]

theorem keys_map_addRec (agg : List (String × AggData)) (rec : ProfileRecord) :
    (agg.map (fun p => if p.1 = rec.func_name then (p.1, addRec p.2 rec) else p)).map
        Prod.fst = agg.map Prod.fst := by
  induction agg with
  | nil => rfl
  | cons hd tl ih =>
    by_cases h : hd.1 = rec.func_name <;> simp [h, ih]

theorem lookup_eq_none_iff (agg : List (String × AggData)) (name : String) :
    agg.lookup name = none ↔ name ∉ agg.map Prod.fst := by
  induction agg with
  | nil => simp [List.lookup]
  | cons hd tl ih =>
    obtain ⟨k, v⟩ := hd
    by_cases h : name = k
    · subst h
      rw [lookup_cons_self]
      simp
    · rw [lookup_cons_ne _ _ _ _ h]
      simp [h, ih]

theorem mem_keys_foldl_aggStep (l : List ProfileRecord) :
    ∀ (agg : List (String × AggData)) (a : String),
      a ∈ (l.foldl aggStep agg).map Prod.fst ↔
        a ∈ agg.map Prod.fst ∨ a ∈ l.map ProfileRecord.func_name := by
  induction l with
  | nil => simp
  | cons rec tl ih =>
    intro agg a
    simp only [List.foldl_cons]
    rw [ih]
    unfold aggStep
    by_cases h : (agg.lookup rec.func_name).isSome
    · have hmem : rec.func_name ∈ agg.map Prod.fst := by
        by_contra hc
        rw [← lookup_eq_none_iff] at hc
        simp [hc] at h
      simp only [h, if_true, keys_map_addRec]
      constructor
      · rintro (ha | ha)
        · exact Or.inl ha
        · exact Or.inr (by simp [ha])
      · rintro (ha | ha)
        · exact Or.inl ha
        · rcases (by simpa using ha : a = rec.func_name ∨ a ∈ tl.map ProfileRecord.func_name)
            with rfl | ha
          · exact Or.inl hmem
          · exact Or.inr ha
    · rw [if_neg h]
      simp only [List.map_append, List.map_cons, List.map_nil, List.mem_append,
        List.mem_singleton, List.mem_cons]
      tauto

theorem nodup_keys_foldl_aggStep (l : List ProfileRecord) :
    ∀ agg : List (String × AggData), (agg.map Prod.fst).Nodup →
      ((l.foldl aggStep agg).map Prod.fst).Nodup := by
  induction l with
  | nil => exact fun _ h => h
  | cons rec tl ih =>
    intro agg hnd
    simp only [List.foldl_cons]
    apply ih
    unfold aggStep
    by_cases h : (agg.lookup rec.func_name).isSome
    · simpa only [h, if_true, keys_map_addRec] using hnd
    · have hnot : rec.func_name ∉ agg.map Prod.fst := by
        rw [← lookup_eq_none_iff]
        exact Option.not_isSome_iff_eq_none.mp h
      rw [if_neg h]
      simp only [List.map_append, List.map_cons, List.map_nil]
      rw [List.nodup_append]
      refine ⟨hnd, List.nodup_singleton _, ?_⟩
      intro a ha hb
      simp only [List.mem_cons, List.not_mem_nil, or_false] at hb
      exact hnot (hb ▸ ha)

theorem lookup_foldl_aggStep (l : List ProfileRecord) :
    ∀ (agg : List (String × AggData)) (name : String),
      (l.foldl aggStep agg).lookup name =
        match agg.lookup name with
        | some d => some ((recsFor name l).foldl addRec d)
        | none =>
          if (recsFor name l).isEmpty then none
          else some ((recsFor name l).foldl addRec ⟨0, 0, 0⟩) := by
  induction l with
  | nil =>
    intro agg name
    cases h : agg.lookup name <;> simp [recsFor, h]
  | cons rec tl ih =>
    intro agg name
    simp only [List.foldl_cons]
    rw [ih]
    by_cases hmem : (agg.lookup rec.func_name).isSome
    · unfold aggStep
      rw [if_pos hmem, lookup_map_addRec]
      by_cases hname : name = rec.func_name
      · subst hname
        obtain ⟨d, hd⟩ := Option.isSome_iff_exists.mp hmem
        rw [hd, if_pos rfl, recsFor_cons_eq rec.func_name rec tl rfl]
        simp
      · rw [recsFor_cons_ne name rec tl (fun hc => hname hc.symm), if_neg hname]
    · unfold aggStep
      rw [if_neg hmem, lookup_append_single]
      have hnone : agg.lookup rec.func_name = none :=
        Option.not_isSome_iff_eq_none.mp hmem
      by_cases hname : name = rec.func_name
      · rw [recsFor_cons_eq name rec tl hname.symm]
        subst hname
        simp [hnone]
      · rw [recsFor_cons_ne name rec tl (fun hc => hname hc.symm)]
        simp [hname]

theorem foldl_addRec_spec (f : List ProfileRecord) :
    ∀ d : AggData,
      f.foldl addRec d =
        ⟨d.count + f.length,
         d.energy_j + (f.map ProfileRecord.energy_j).sum,
         d.elapsed_ns + (f.map ProfileRecord.elapsed_ns).sum⟩ := by
  induction f with
  | nil => intro d; simp
  | cons r tl ih =>
    intro d
    simp only [List.foldl_cons, ih, addRec, List.length_cons, List.map_cons, List.sum_cons,
      AggData.mk.injEq]
    refine ⟨by omega, by ring, by ring⟩

theorem aggregate_lookup (l : List ProfileRecord) (name : String) :
    (aggregate l).lookup name =
      if (recsFor name l).isEmpty then none
      else some ⟨(recsFor name l).length,
                 ((recsFor name l).map ProfileRecord.energy_j).sum,
                 ((recsFor name l).map ProfileRecord.elapsed_ns).sum⟩ := by
  have h := lookup_foldl_aggStep l [] name
  simp only [aggregate]
  rw [h]
  simp only [List.lookup]
  by_cases he : (recsFor name l).isEmpty
  · simp [he]
  · simp only [he, if_false, foldl_addRec_spec, Nat.zero_add, zero_add]

theorem aggregate_length (l : List ProfileRecord) :
    (aggregate l).length = (l.map ProfileRecord.func_name).dedup.length := by
  have hkeys : ∀ a, a ∈ (aggregate l).map Prod.fst ↔ a ∈ l.map ProfileRecord.func_name := by
    intro a
    have := mem_keys_foldl_aggStep l [] a
    simpa [aggregate] using this
  have hnd : ((aggregate l).map Prod.fst).Nodup :=
    nodup_keys_foldl_aggStep l [] (by simp)
  have hfin : ((aggregate l).map Prod.fst).toFinset = (l.map ProfileRecord.func_name).toFinset := by
    ext a
    simp only [List.mem_toFinset]
    exact hkeys a
  calc (aggregate l).length
      = ((aggregate l).map Prod.fst).length := (List.length_map _ _).symm
    _ = ((aggregate l).map Prod.fst).dedup.length := by rw [List.Nodup.dedup hnd]
    _ = ((aggregate l).map Prod.fst).toFinset.card := (List.card_toFinset _).symm
    _ = (l.map ProfileRecord.func_name).toFinset.card := by rw [hfin]
    _ = (l.map ProfileRecord.func_name).dedup.length := List.card_toFinset _

theorem filter_key_eq (agg : List (String × AggData)) (name : String) (d : AggData)
    (hnd : (agg.map Prod.fst).Nodup) (hl : agg.lookup name = some d) :
    agg.filter (fun p => p.1 == name) = [(name, d)] := by
  induction agg with
  | nil => simp [List.lookup] at hl
  | cons hd tl ih =>
    obtain ⟨k, v⟩ := hd
    simp only [List.map_cons, List.nodup_cons] at hnd
    by_cases h : name = k
    · subst h
      rw [lookup_cons_self] at hl
      have hv : v = d := Option.some.inj hl
      subst hv
      have htl : tl.filter (fun p => p.1 == name) = [] := by
        rw [List.filter_eq_nil_iff]
        intro p hp hc
        exact hnd.1 (by
          have hpn : p.1 = name := by simpa using hc
          exact hpn ▸ List.mem_map_of_mem Prod.fst hp)
      rw [List.filter_cons_of_pos (by simp), htl]
    · rw [lookup_cons_ne _ _ _ _ h] at hl
      rw [List.filter_cons_of_neg (by simpa using fun hc => h hc.symm)]
      exact ih hnd.2 hl

theorem collectResults_isOk {ε : Type} (uuids : Nat → String)
    (exp : Nat → Except ε TrialResult) (n : Nat)
    (hok : ∀ j, j < n → ∃ r, exp j = .ok r) :
    ∃ rs, collectResults uuids exp n = .ok rs := by
  induction n with
  | zero => exact ⟨[], rfl⟩
  | succ m ih =>
    obtain ⟨rs, hrs⟩ := ih (fun j hj => hok j (Nat.lt_succ_of_lt hj))
    obtain ⟨r, hr⟩ := hok m (Nat.lt_succ_self m)
    exact ⟨rs ++ [(uuids m, r)], by simp [collectResults, hrs, hr]⟩

theorem collectResults_error {ε : Type} (uuids : Nat → String)
    (exp : Nat → Except ε TrialResult) (runs i : Nat) (e : ε)
    (hi : i < runs) (herr : exp i = .error e)
    (hok : ∀ j, j < i → ∃ r, exp j = .ok r) :
    collectResults uuids exp runs = .error e := by
  induction runs with
  | zero => omega
  | succ n ih =>
    rcases Nat.lt_succ_iff_lt_or_eq.mp hi with h | h
    · have hn := ih h
      simp [collectResults, hn]
    · subst h
      obtain ⟨rs, hrs⟩ := collectResults_isOk uuids exp i hok
      simp [collectResults, hrs, herr]

theorem collectResults_ok {ε : Type} (uuids : Nat → String)
    (exp : Nat → Except ε TrialResult) (f : Nat → TrialResult) (runs : Nat)
    (hok : ∀ i, i < runs → exp i = .ok (f i)) :
    collectResults uuids exp runs = .ok ((List.range runs).map (fun i => (uuids i, f i))) := by
  induction runs with
  | zero => rfl
  | succ n ih =>
    have h1 := ih (fun i hi => hok i (Nat.lt_succ_of_lt hi))
    have h2 := hok n (Nat.lt_succ_self n)
    simp [collectResults, h1, h2, List.range_succ]

theorem run_experiment_ok {ε : Type} (uuids : Nat → String)
    (exp : Nat → Except ε TrialResult) (f : Nat → TrialResult) (N : Nat) (st : FilesState)
    (hok : ∀ i, i < N → exp i = .ok (f i)) :
    run_experiment uuids exp N st =
      (.ok (), persist ((List.range N).map (fun i => (uuids i, f i))) st) := by
  unfold run_experiment
  rw [collectResults_ok uuids exp f N hok]
  cases hp : (List.range N).map (fun i => (uuids i, f i)) with
  | nil => rfl
  | cons a l => rfl

theorem persist_metricsFile (u : String) (r : TrialResult)
    (rest : List (String × TrialResult)) (st : FilesState) :
    (persist ((u, r) :: rest) st).metricsFile =
      some (st.metricsFile.getD [] ++
        (if st.metricsFile.isSome then [] else [(metricKeys r).map Cell.str]) ++
        ((u, r) :: rest).map (fun p => metricsRow (metricKeys r) p.1 p.2)) := rfl

theorem persist_profilesFile (u : String) (r : TrialResult)
    (rest : List (String × TrialResult)) (st : FilesState) :
    (persist ((u, r) :: rest) st).profilesFile =
      some (st.profilesFile.getD [] ++
        (if st.profilesFile.isSome then [] else [profilesHeader]) ++
        ((u, r) :: rest).flatMap (fun p => summaryRows p.1 p.2)) := rfl

theorem persist_detailedFile (u : String) (r : TrialResult)
    (rest : List (String × TrialResult)) (st : FilesState) :
    (persist ((u, r) :: rest) st).detailedFile =
      some (st.detailedFile.getD [] ++
        (if st.detailedFile.isSome then [] else [detailedHeader]) ++
        ((u, r) :: rest).flatMap (fun p => detailRows p.1 p.2)) := rfl

theorem range_map_pair_cons {α : Type} (g : Nat → α) (m : Nat) :
    (List.range (m + 1)).map g = g 0 :: ((List.range m).map (fun i => g (i + 1))) := by
  rw [List.range_succ_eq_map, List.map_cons, List.map_map]
  rfl

theorem range_flatMap_cons {α : Type} (g : Nat → List α) (m : Nat) :
    (List.range (m + 1)).flatMap g = g 0 ++ ((List.range m).flatMap (fun i => g (i + 1))) := by
  rw [List.range_succ_eq_map, List.flatMap_cons, List.flatMap_map]

theorem run_experiment_tables {ε : Type} (uuids : Nat → String)
    (exp : Nat → Except ε TrialResult) (f : Nat → TrialResult) (m : Nat) (st : FilesState)
    (hok : ∀ i, i < m + 1 → exp i = .ok (f i)) :
    (run_experiment uuids exp (m + 1) st).2.metricsFile =
      some (st.metricsFile.getD [] ++
        (if st.metricsFile.isSome then [] else [(metricKeys (f 0)).map Cell.str]) ++
        (List.range (m + 1)).map
          (fun i => metricsRow (metricKeys (f 0)) (uuids i) (f i))) ∧
    (run_experiment uuids exp (m + 1) st).2.profilesFile =
      some (st.profilesFile.getD [] ++
        (if st.profilesFile.isSome then [] else [profilesHeader]) ++
        (List.range (m + 1)).flatMap (fun i => summaryRows (uuids i) (f i))) ∧
    (run_experiment uuids exp (m + 1) st).2.detailedFile =
      some (st.detailedFile.getD [] ++
        (if st.detailedFile.isSome then [] else [detailedHeader]) ++
        (List.range (m + 1)).flatMap (fun i => detailRows (uuids i) (f i))) := by
  have hre := run_experiment_ok uuids exp f (m + 1) st hok
  refine ⟨?_, ?_, ?_⟩
  · rw [hre, range_map_pair_cons (fun i => (uuids i, f i)) m, persist_metricsFile,
      range_map_pair_cons (fun i => metricsRow (metricKeys (f 0)) (uuids i) (f i)) m]
    simp [List.map_map]
  · rw [hre, range_map_pair_cons (fun i => (uuids i, f i)) m, persist_profilesFile,
      range_flatMap_cons (fun i => summaryRows (uuids i) (f i)) m]
    simp [List.flatMap_map]
  · rw [hre, range_map_pair_cons (fun i => (uuids i, f i)) m, persist_detailedFile,
      range_flatMap_cons (fun i => detailRows (uuids i) (f i)) m]
    simp [List.flatMap_map]

/-- Number of rows of a table whose first cell is the correlation id `u`. -/
def uuidRowCount (u : String) (rows : List Row) : Nat :=
  rows.countP (fun row => decide (row.head? = some (Cell.str u)))

theorem map_eq_flatMap_singleton {α β : Type} (g : α → β) (l : List α) :
    l.map g = l.flatMap (fun x => [g x]) := by
  induction l with
  | nil => rfl
  | cons a tl ih => simp [ih]

theorem uuidRowCount_append (u : String) (l1 l2 : List Row) :
    uuidRowCount u (l1 ++ l2) = uuidRowCount u l1 + uuidRowCount u l2 :=
  List.countP_append _ l1 l2

theorem uuidRowCount_blocks (u : Nat → String) (R : Nat → List Row) :
    ∀ (N i : Nat), i < N → (∀ j, j < N → u j = u i → j = i) →
    (∀ j row, j < N → row ∈ R j → row.head? = some (Cell.str (u j))) →
    uuidRowCount (u i) ((List.range N).flatMap R) = (R i).length := by
  intro N
  induction N with
  | zero => intro i hi; omega
  | succ n ih =>
    intro i hi hinj hhead
    unfold uuidRowCount
    rw [List.range_succ, List.flatMap_append, List.countP_append]
    rcases Nat.lt_succ_iff_lt_or_eq.mp hi with h | h
    · have h1 := ih i h (fun j hj hu => hinj j (Nat.lt_succ_of_lt hj) hu)
        (fun j row hj hr => hhead j row (Nat.lt_succ_of_lt hj) hr)
      have h2 : (R n).countP
          (fun row => decide (row.head? = some (Cell.str (u i)))) = 0 := by
        rw [List.countP_eq_zero]
        intro row hrow
        have hh := hhead n row (Nat.lt_succ_self n) hrow
        simp only [hh, decide_eq_true_eq, Option.some.injEq, Cell.str.injEq]
        intro hc
        exact absurd (hinj n (Nat.lt_succ_self n) hc) (by omega)
      unfold uuidRowCount at h1
      simp [h1, h2]
    · subst h
      have h2 : (R i).countP
          (fun row => decide (row.head? = some (Cell.str (u i)))) = (R i).length := by
        rw [List.countP_eq_length]
        intro row hrow
        simp [hhead i row (Nat.lt_succ_self i) hrow]
      have h1 : ((List.range i).flatMap R).countP
          (fun row => decide (row.head? = some (Cell.str (u i)))) = 0 := by
        rw [List.countP_eq_zero]
        intro row hrow
        obtain ⟨j, hj, hrj⟩ := List.mem_flatMap.mp hrow
        have hji : j < i := List.mem_range.mp hj
        have hh := hhead j row (Nat.lt_succ_of_lt hji) hrj
        simp only [hh, decide_eq_true_eq, Option.some.injEq, Cell.str.injEq]
        intro hc
        exact absurd (hinj j (Nat.lt_succ_of_lt hji) hc) (by omega)
      simp [h1, h2]

theorem metricsRow_head (u : String) (r r0 : TrialResult) :
    (metricsRow (metricKeys r0) u r).head? = some (Cell.str u) := by
  simp [metricsRow, metricKeys, resultCell]

theorem summaryRows_head (u : String) (r : TrialResult) (row : Row)
    (h : row ∈ summaryRows u r) : row.head? = some (Cell.str u) := by
  unfold summaryRows at h
  obtain ⟨p, hp, hrow⟩ := List.mem_map.mp h
  rw [← hrow]
  rfl

theorem detailRows_head (u : String) (r : TrialResult) (row : Row)
    (h : row ∈ detailRows u r) : row.head? = some (Cell.str u) := by
  unfold detailRows at h
  obtain ⟨rec, hp, hrow⟩ := List.mem_map.mp h
  rw [← hrow]
  rfl

theorem header_count_zero (u : String) (hu : ¬ u = "run_uuid") (hdr : Row)
    (hh : hdr.head? = some (Cell.str "run_uuid")) (b : Bool) :
    uuidRowCount u (if b then ([] : List Row) else [hdr]) = 0 := by
  cases b
  · have hne : ¬ "run_uuid" = u := fun hc => hu hc.symm
    simp [uuidRowCount, List.countP_cons, hh, hne]
  · simp [uuidRowCount]

/-! ### Decimal rendering facts (for the uniqueness of record file names) -/

/-- Reading a decimal digit string left to right on top of accumulator `a`. -/
def digitStep (a : Nat) (c : Char) : Nat := 10 * a + (c.toNat - 48)

theorem digitChar_toNat_lt10 : ∀ d, d < 10 → (Nat.digitChar d).toNat = d + 48 := by
  decide

theorem digitChar_ne_underscore : ∀ d, d < 10 → ¬ Nat.digitChar d = '_' := by
  decide

theorem foldl_toDigitsCore (fuel : Nat) :
    ∀ (n : Nat) (ds : List Char), n < fuel →
      (Nat.toDigitsCore 10 fuel n ds).foldl digitStep 0 = ds.foldl digitStep n := by
  induction fuel with
  | zero => intro n ds h; omega
  | succ f ih =>
    intro n ds h
    simp only [Nat.toDigitsCore]
    by_cases h0 : n / 10 = 0
    · rw [if_pos h0]
      have hdt : (Nat.digitChar (n % 10)).toNat = n % 10 + 48 :=
        digitChar_toNat_lt10 _ (by omega)
      simp only [List.foldl_cons, digitStep, hdt]
      congr 1
      omega
    · rw [if_neg h0]
      have hlt : n / 10 < f := by omega
      rw [ih (n / 10) (Nat.digitChar (n % 10) :: ds) hlt]
      simp only [List.foldl_cons, digitStep,
        digitChar_toNat_lt10 (n % 10) (Nat.mod_lt n (by norm_num))]
      congr 1
      omega

theorem foldl_toDigits (n : Nat) : (Nat.toDigits 10 n).foldl digitStep 0 = n :=
  foldl_toDigitsCore (n + 1) n [] (Nat.lt_succ_self n)

theorem nat_repr_inj (a b : Nat) (h : Nat.repr a = Nat.repr b) : a = b := by
  have hd : Nat.toDigits 10 a = Nat.toDigits 10 b := congrArg String.data h
  have ha := foldl_toDigits a
  rw [hd, foldl_toDigits b] at ha
  exact ha.symm

theorem toDigitsCore_no_underscore (fuel : Nat) :
    ∀ (n : Nat) (ds : List Char), '_' ∉ ds → '_' ∉ Nat.toDigitsCore 10 fuel n ds := by
  induction fuel with
  | zero => intro n ds h; simpa [Nat.toDigitsCore] using h
  | succ f ih =>
    intro n ds h
    simp only [Nat.toDigitsCore]
    by_cases h0 : n / 10 = 0
    · rw [if_pos h0]
      intro hmem
      rcases List.mem_cons.mp hmem with hc | hc
      · exact digitChar_ne_underscore (n % 10) (Nat.mod_lt n (by omega)) hc.symm
      · exact h hc
    · rw [if_neg h0]
      refine ih (n / 10) _ ?_
      intro hmem
      rcases List.mem_cons.mp hmem with hc | hc
      · exact digitChar_ne_underscore (n % 10) (Nat.mod_lt n (by omega)) hc.symm
      · exact h hc

theorem repr_no_underscore (n : Nat) : '_' ∉ (Nat.repr n).data :=
  toDigitsCore_no_underscore (n + 1) n [] (List.not_mem_nil '_')

theorem append_underscore_inj (xs1 : List Char) :
    ∀ (xs2 ys1 ys2 : List Char), '_' ∉ xs1 → '_' ∉ xs2 →
      xs1 ++ '_' :: ys1 = xs2 ++ '_' :: ys2 → xs1 = xs2 ∧ ys1 = ys2 := by
  induction xs1 with
  | nil =>
    intro xs2 ys1 ys2 h1 h2 h
    cases xs2 with
    | nil => simpa using h
    | cons b bs =>
      exfalso
      simp only [List.nil_append, List.cons_append, List.cons.injEq] at h
      exact h2 (by simp [← h.1])
  | cons a as ih =>
    intro xs2 ys1 ys2 h1 h2 h
    cases xs2 with
    | nil =>
      exfalso
      simp only [List.cons_append, List.nil_append, List.cons.injEq] at h
      exact h1 (by simp [h.1])
    | cons b bs =>
      simp only [List.cons_append, List.cons.injEq] at h
      have has : '_' ∉ as := fun hc => h1 (List.mem_cons_of_mem a hc)
      have hbs : '_' ∉ bs := fun hc => h2 (List.mem_cons_of_mem b hc)
      obtain ⟨hx, hy⟩ := ih bs ys1 ys2 has hbs h.2
      exact ⟨by rw [h.1, hx], hy⟩

theorem mkProfFilename_pid_inj (pid1 pid2 : Nat) (ts1 ts2 : String)
    (h : mkProfFilename pid1 ts1 = mkProfFilename pid2 ts2) : pid1 = pid2 := by
  have hdata := congrArg String.data h
  simp only [mkProfFilename, String.data_append] at hdata
  simp only [List.append_assoc, List.cons_append, List.nil_append,
    List.cons.injEq, true_and] at hdata
  have hsplit := append_underscore_inj (Nat.repr pid1).data (Nat.repr pid2).data
    (ts1.data ++ ".json".data) (ts2.data ++ ".json".data)
    (repr_no_underscore pid1) (repr_no_underscore pid2) hdata
  exact nat_repr_inj pid1 pid2 (String.ext hsplit.1)

/-! ### Claim theorems: profiler and sensor -/

/-- C4: the wrapper built by `FunctionProfiler.profile f` returns exactly the
value `f` returns on those arguments, and a failure raised by `f` propagates
unchanged to the wrapper's caller. -/
theorem C4_wrapper_passthrough {ε β : Type} (cfg : ProfilerConfig) (pid : Nat) (ts : String)
    (fname : String) (outcome : Except ε β) (energy : ℚ) (elapsed : ℤ) (st : ProfilerState) :
    (FunctionProfiler.profiledCall cfg pid ts fname outcome energy elapsed st).2 = outcome := by
  cases outcome <;> rfl

/-- C9: when an invocation of the wrapped function raises, no record is emitted:
the whole record store (in-process list and shared directory) is left exactly as
it was before the call. -/
theorem C9_no_record_on_failure {ε β : Type} (cfg : ProfilerConfig) (pid : Nat) (ts : String)
    (fname : String) (outcome : Except ε β) (energy : ℚ) (elapsed : ℤ) (st : ProfilerState)
    (e : ε) (h : outcome = .error e) :
    (FunctionProfiler.profiledCall cfg pid ts fname outcome energy elapsed st).1 = st := by
  subst h; rfl

/-- Witness for C9 at a concrete failing call. -/
theorem C9_no_record_on_failure_witness :
    (FunctionProfiler.profiledCall (ε := Unit) (β := Unit) ⟨some "/tmp/profiles"⟩ 7 "1700000000000000"
      "work" (.error ()) 0 0 ⟨[], []⟩).1 = ⟨[], []⟩ :=
  C9_no_record_on_failure ⟨some "/tmp/profiles"⟩ 7 "1700000000000000" "work" (.error ()) 0 0
    ⟨[], []⟩ () rfl

/-- C10: harvesting is non-destructive and idempotent: `get_records` leaves the
record store unchanged, and a second harvest with no intervening profiled call
or clear returns the same records. -/
theorem C10_harvest_idempotent (cfg : ProfilerConfig) (st : ProfilerState) :
    (FunctionProfiler.get_records cfg st).2 = st ∧
    (FunctionProfiler.get_records cfg ((FunctionProfiler.get_records cfg st).2)).1 =
      (FunctionProfiler.get_records cfg st).1 :=
  ⟨rfl, rfl⟩

/-- C7: at record-creation time, if a shared-directory path is present in the
process-wide configuration the record is serialized to a fresh file named from
the process id and timestamp (and two concurrently-writing processes, having
distinct pids, can never produce the same file name), otherwise it is appended
to the in-process ordered collection; exactly one sink receives the record. -/
theorem C7_sink_selection (cfg : ProfilerConfig) (pid : Nat) (ts : String)
    (rec : ProfileRecord) (st : ProfilerState) :
    (cfg.profileDir.isSome →
      (FunctionProfiler.emitRecord cfg pid ts rec st).dirFiles =
        st.dirFiles ++ [(mkProfFilename pid ts, some rec)] ∧
      (FunctionProfiler.emitRecord cfg pid ts rec st).records = st.records) ∧
    (cfg.profileDir = none →
      (FunctionProfiler.emitRecord cfg pid ts rec st).records = st.records ++ [rec] ∧
      (FunctionProfiler.emitRecord cfg pid ts rec st).dirFiles = st.dirFiles) ∧
    (∀ pid2 ts2, ¬ pid = pid2 → ¬ mkProfFilename pid ts = mkProfFilename pid2 ts2) := by
  refine ⟨?_, ?_, ?_⟩
  · intro hs
    obtain ⟨d, hd⟩ := Option.isSome_iff_exists.mp hs
    simp [FunctionProfiler.emitRecord, hd]
  · intro hn
    simp [FunctionProfiler.emitRecord, hn]
  · intro pid2 ts2 hne hc
    exact hne (mkProfFilename_pid_inj pid pid2 ts ts2 hc)

/-- Witness for C7: a configured worker process writes one uniquely-named
file and leaves the in-process list alone; a different pid yields a
different file name. -/
theorem C7_sink_selection_witness :
    (FunctionProfiler.emitRecord ⟨some "/tmp/profiles"⟩ 31
      (mkTimestamp 1700000000 ⟨250000, by omega⟩) ⟨"f", 2, 3⟩ ⟨[], []⟩).dirFiles =
      [(mkProfFilename 31 (mkTimestamp 1700000000 ⟨250000, by omega⟩), some ⟨"f", 2, 3⟩)] ∧
    (FunctionProfiler.emitRecord ⟨some "/tmp/profiles"⟩ 31
      (mkTimestamp 1700000000 ⟨250000, by omega⟩) ⟨"f", 2, 3⟩ ⟨[], []⟩).records = [] ∧
    ¬ mkProfFilename 31 (mkTimestamp 1700000000 ⟨250000, by omega⟩) =
      mkProfFilename 32 (mkTimestamp 1700000000 ⟨250000, by omega⟩) := by
  have h := C7_sink_selection ⟨some "/tmp/profiles"⟩ 31
    (mkTimestamp 1700000000 ⟨250000, by omega⟩) ⟨"f", 2, 3⟩ ⟨[], []⟩
  refine ⟨?_, ?_, ?_⟩
  · simpa using (h.1 rfl).1
  · exact (h.1 rfl).2
  · exact h.2.2 32 (mkTimestamp 1700000000 ⟨250000, by omega⟩) (by omega)

/-- C8: ending a scoped energy capture yields the sum of all available domain
readings (package plus memory controller) converted from micro-joules to
joules; when that sum is zero a warning is emitted and the caller still
receives `0.0` (the function is total: no error is raised). -/
theorem C8_exit_energy (r : RaplResult) :
    (EnergySensor.exitEnergy (some r)).1 =
      ((r.pkg.getD []).sum + (r.dram.getD []).sum) / 1000000 ∧
    ((r.pkg.getD []).sum + (r.dram.getD []).sum = 0 →
      (EnergySensor.exitEnergy (some r)).2 = true ∧
      (EnergySensor.exitEnergy (some r)).1 = 0) := by
  refine ⟨rfl, fun h => ⟨?_, ?_⟩⟩
  · simp [EnergySensor.exitEnergy, h]
  · simp [EnergySensor.exitEnergy, h]

/-- Witness for C8 at a concrete all-zero reading. -/
theorem C8_exit_energy_witness :
    (EnergySensor.exitEnergy (some ⟨some [0], none⟩)).1 = (0 + 0) / 1000000 ∧
    ((0 : ℚ) + 0 = 0 →
      (EnergySensor.exitEnergy (some ⟨some [0], none⟩)).2 = true ∧
      (EnergySensor.exitEnergy (some ⟨some [0], none⟩)).1 = 0) := by
  have h := C8_exit_energy ⟨some [0], none⟩
  simpa using h

/-- C6 counterexample: with a shared directory configured, `clear` removes only
the `*.json` record files (`glob("*.json")`), not every file currently in the
directory: a stray non-JSON file survives. -/
theorem C6_counterexample :
    (FunctionProfiler.clear ⟨some "/tmp/profiles"⟩
      ⟨[], [("stray.txt", none)]⟩).dirFiles = [("stray.txt", none)] := by
  decide

/-- C6 (amended): `clear` empties the in-process collection and deletes every
`*.json` record file currently in the shared directory (when one is
configured); since harvesting reads only `*.json` files, the immediately
following `get_records` returns the empty list. -/
theorem C6_clear_then_harvest (cfg : ProfilerConfig) (st : ProfilerState) :
    (FunctionProfiler.get_records cfg (FunctionProfiler.clear cfg st)).1 = [] ∧
    (FunctionProfiler.clear cfg st).records = [] ∧
    (cfg.profileDir.isSome →
      ((FunctionProfiler.clear cfg st).dirFiles.filter (fun f => isJsonFile f.1)) = []) := by
  rcases cfg with ⟨dir⟩
  cases dir with
  | none =>
    refine ⟨?_, rfl, ?_⟩
    · simp [FunctionProfiler.get_records, FunctionProfiler.clear]
    · intro h; simp at h
  | some d =>
    refine ⟨?_, rfl, fun _ => ?_⟩
    · simp [FunctionProfiler.get_records, FunctionProfiler.clear,
        filter_not_then_filter]
    · exact filter_not_then_filter (fun f => isJsonFile f.1) st.dirFiles

/-- C2: if a trial's harvested record list contains exactly `k` records with a
given function name, the function-summary row written for that (trial,
function) pair reports call count `k`, summed energy equal to the sum of the
`k` records' energies, and summed elapsed time equal to the sum of their
elapsed times. -/
theorem C2_summary_row (uuid : String) (r : TrialResult) (name : String) (k : Nat)
    (hk : (recsFor name r.profiles).length = k) (hpos : 0 < k) :
    (summaryRows uuid r).filter
        (fun row => decide (row.get? 1 = some (Cell.str name))) =
      [[Cell.str uuid, Cell.str name, Cell.int (k : ℤ),
        Cell.num ((recsFor name r.profiles).map ProfileRecord.energy_j).sum,
        Cell.int ((recsFor name r.profiles).map ProfileRecord.elapsed_ns).sum]] := by
  have hne : (recsFor name r.profiles).isEmpty = false := by
    cases hrf : recsFor name r.profiles with
    | nil => rw [hrf] at hk; simp at hk; omega
    | cons a l => simp
  have hlk : (aggregate r.profiles).lookup name =
      some ⟨(recsFor name r.profiles).length,
            ((recsFor name r.profiles).map ProfileRecord.energy_j).sum,
            ((recsFor name r.profiles).map ProfileRecord.elapsed_ns).sum⟩ := by
    rw [aggregate_lookup]
    simp [hne]
  have hnd : ((aggregate r.profiles).map Prod.fst).Nodup :=
    nodup_keys_foldl_aggStep r.profiles [] (by simp)
  have hfl := filter_key_eq (aggregate r.profiles) name _ hnd hlk
  unfold summaryRows
  rw [List.filter_map]
  have hpred : ((fun row => decide (row.get? 1 = some (Cell.str name))) ∘
      (fun p : String × AggData =>
        [Cell.str uuid, Cell.str p.1, Cell.int p.2.count, Cell.num p.2.energy_j,
         Cell.int p.2.elapsed_ns])) =
      (fun p : String × AggData => p.1 == name) := by
    funext p
    by_cases hp : p.1 = name <;>
      simp [List.get?_cons_succ, List.get?_cons_zero, hp]
  rw [hpred, hfl]
  simp [hk]

/-- Witness for C2: the function `f` is called twice in a three-record trial. -/
theorem C2_summary_row_witness :
    (summaryRows "u" ⟨[], [⟨"f", 2, 3⟩, ⟨"g", 5, 7⟩, ⟨"f", 1, 4⟩]⟩).filter
        (fun row => decide (row.get? 1 = some (Cell.str "f"))) =
      [[Cell.str "u", Cell.str "f", Cell.int (2 : ℤ),
        Cell.num (3 : ℚ), Cell.int (7 : ℤ)]] := by
  have h : (summaryRows "u" ⟨[], [⟨"f", 2, 3⟩, ⟨"g", 5, 7⟩, ⟨"f", 1, 4⟩]⟩).filter
        (fun row => decide (row.get? 1 = some (Cell.str "f"))) =
      [[Cell.str "u", Cell.str "f", Cell.int ((2 : Nat) : ℤ),
        Cell.num ((recsFor "f" [⟨"f", 2, 3⟩, ⟨"g", 5, 7⟩, ⟨"f", 1, 4⟩]).map
          ProfileRecord.energy_j).sum,
        Cell.int ((recsFor "f" [⟨"f", 2, 3⟩, ⟨"g", 5, 7⟩, ⟨"f", 1, 4⟩]).map
          ProfileRecord.elapsed_ns).sum]] :=
    C2_summary_row "u" ⟨[], [⟨"f", 2, 3⟩, ⟨"g", 5, 7⟩, ⟨"f", 1, 4⟩]⟩ "f" 2
      (by decide) (by decide)
  have hrf : recsFor "f" [⟨"f", 2, 3⟩, ⟨"g", 5, 7⟩, ⟨"f", 1, 4⟩] =
      [⟨"f", 2, 3⟩, ⟨"f", 1, 4⟩] := by decide
  have he : (((recsFor "f" [⟨"f", 2, 3⟩, ⟨"g", 5, 7⟩, ⟨"f", 1, 4⟩]).map
      ProfileRecord.energy_j).sum : ℚ) = 3 := by
    rw [hrf]
    norm_num [List.map_cons, List.map_nil, List.sum_cons, List.sum_nil]
  have ht : (((recsFor "f" [⟨"f", 2, 3⟩, ⟨"g", 5, 7⟩, ⟨"f", 1, 4⟩]).map
      ProfileRecord.elapsed_ns).sum : ℤ) = 7 := by
    rw [hrf]
    norm_num [List.map_cons, List.map_nil, List.sum_cons, List.sum_nil]
  rw [he, ht] at h
  rw [h]
  norm_num

/-- Witness for C6 at a concrete state with a configured directory. -/
theorem C6_clear_then_harvest_witness :
    (FunctionProfiler.get_records ⟨some "/tmp/profiles"⟩
      (FunctionProfiler.clear ⟨some "/tmp/profiles"⟩
        ⟨[⟨"f", 1, 2⟩], [("prof_1_2.json", some ⟨"g", 3, 4⟩)]⟩)).1 = [] ∧
    (FunctionProfiler.clear ⟨some "/tmp/profiles"⟩
      ⟨[⟨"f", 1, 2⟩], [("prof_1_2.json", some ⟨"g", 3, 4⟩)]⟩).records = [] ∧
    ((ProfilerConfig.mk (some "/tmp/profiles")).profileDir.isSome →
      ((FunctionProfiler.clear ⟨some "/tmp/profiles"⟩
        ⟨[⟨"f", 1, 2⟩], [("prof_1_2.json", some ⟨"g", 3, 4⟩)]⟩).dirFiles.filter
          (fun f => isJsonFile f.1)) = []) :=
  C6_clear_then_harvest ⟨some "/tmp/profiles"⟩
    ⟨[⟨"f", 1, 2⟩], [("prof_1_2.json", some ⟨"g", 3, 4⟩)]⟩

/-! ### Claim theorems: orchestrator -/

/-- C5: a failure raised by a trial's workload propagates out of
`run_experiment` to its caller, and no row for that trial (indeed no row at
all from this invocation, since persistence runs only after all trials) is
written to any of the three tables. -/
theorem C5_workload_failure {ε : Type} (uuids : Nat → String)
    (exp : Nat → Except ε TrialResult) (runs i : Nat) (e : ε) (st : FilesState)
    (hi : i < runs) (herr : exp i = .error e)
    (hok : ∀ j, j < i → ∃ r, exp j = .ok r) :
    run_experiment uuids exp runs st = (.error e, st) := by
  unfold run_experiment
  rw [collectResults_error uuids exp runs i e hi herr hok]

/-- Witness for C5: a single trial that raises leaves all three files
untouched and surfaces the failure. -/
theorem C5_workload_failure_witness :
    run_experiment (fun i => Nat.repr i)
      (fun _ => (Except.error 42 : Except Nat TrialResult)) 1
      ⟨none, none, none⟩ = (.error 42, ⟨none, none, none⟩) :=
  C5_workload_failure (fun i => Nat.repr i) (fun _ => Except.error 42) 1 0 42
    ⟨none, none, none⟩ (by omega) rfl (fun j hj => absurd hj (by omega))

/-- C3 counterexample: across a process restart the metrics key set is not
kept identical: a first orchestrator run writes a two-column header; a second
run appending to the same destination whose first trial carries an extra
counter key writes three-cell rows after the frozen two-cell header (row
lengths `[2, 2, 3]`), so the subsequent trial does not produce an identical
key set. -/
theorem C3_counterexample :
    ((run_experiment (fun _ => "u1")
        (fun _ => (Except.ok ⟨[("m", 1), ("x", 2)], []⟩ : Except Unit TrialResult)) 1
        (run_experiment (fun _ => "u0")
          (fun _ => (Except.ok ⟨[("m", 1)], []⟩ : Except Unit TrialResult)) 1
          ⟨none, none, none⟩).2).2.metricsFile.getD []).map List.length = [2, 2, 3] := by
  decide

/-- C3 (amended): for every destination file a header row is written if and
only if the file does not yet exist at the start of persistence (otherwise
append mode, no header); the metrics column set is the first trial's key set
with `run_uuid` pinned first; and within one orchestrator invocation every
trial's metrics row is laid out by that same key list (same arity and order).
Across process restarts the key list is recomputed from the new invocation's
first trial and is not checked against the existing header. -/
theorem C3_metrics_schema {ε : Type} (uuids : Nat → String)
    (exp : Nat → Except ε TrialResult) (f : Nat → TrialResult) (N : Nat) (st : FilesState)
    (hN : 0 < N) (hok : ∀ i, i < N → exp i = .ok (f i)) :
    (run_experiment uuids exp N st).2.metricsFile =
      some (st.metricsFile.getD [] ++
        (if st.metricsFile.isSome then [] else [(metricKeys (f 0)).map Cell.str]) ++
        (List.range N).map (fun i => metricsRow (metricKeys (f 0)) (uuids i) (f i))) ∧
    (run_experiment uuids exp N st).2.profilesFile =
      some (st.profilesFile.getD [] ++
        (if st.profilesFile.isSome then [] else [profilesHeader]) ++
        (List.range N).flatMap (fun i => summaryRows (uuids i) (f i))) ∧
    (run_experiment uuids exp N st).2.detailedFile =
      some (st.detailedFile.getD [] ++
        (if st.detailedFile.isSome then [] else [detailedHeader]) ++
        (List.range N).flatMap (fun i => detailRows (uuids i) (f i))) ∧
    metricKeys (f 0) = "run_uuid" :: (f 0).metrics.map Prod.fst ∧
    (∀ i, i < N → (metricsRow (metricKeys (f 0)) (uuids i) (f i)).length =
      (metricKeys (f 0)).length) := by
  cases N with
  | zero => omega
  | succ m =>
    have ht := run_experiment_tables uuids exp f m st hok
    exact ⟨ht.1, ht.2.1, ht.2.2, rfl, fun i _ => by simp [metricsRow]⟩

/-- C1: with N trials over a non-failing experiment and fresh, pairwise
distinct uuids, run_experiment produces exactly N distinct correlation ids;
each appears in the metrics table in exactly one row, in the function-summary
table in one row per distinct function name recorded in that trial, and in
the call-detail table in exactly as many rows as that trial has harvested
records. -/
theorem C1_correlation_ids {ε : Type} (uuids : Nat → String)
    (exp : Nat → Except ε TrialResult) (f : Nat → TrialResult) (N : Nat) (st : FilesState)
    (hok : ∀ i, i < N → exp i = .ok (f i))
    (hinj : ∀ i j, i < N → j < N → uuids i = uuids j → i = j)
    (hfresh : ∀ i, i < N → ¬ uuids i = "run_uuid" ∧
      uuidRowCount (uuids i) (st.metricsFile.getD []) = 0 ∧
      uuidRowCount (uuids i) (st.profilesFile.getD []) = 0 ∧
      uuidRowCount (uuids i) (st.detailedFile.getD []) = 0) :
    ((List.range N).map uuids).Nodup ∧
    (∀ i, i < N →
      uuidRowCount (uuids i)
        ((run_experiment uuids exp N st).2.metricsFile.getD []) = 1 ∧
      uuidRowCount (uuids i)
        ((run_experiment uuids exp N st).2.profilesFile.getD []) =
        ((f i).profiles.map ProfileRecord.func_name).dedup.length ∧
      uuidRowCount (uuids i)
        ((run_experiment uuids exp N st).2.detailedFile.getD []) =
        (f i).profiles.length) := by
  constructor
  · exact List.Nodup.map_on
      (fun x hx y hy hxy => hinj x y (List.mem_range.mp hx) (List.mem_range.mp hy) hxy)
      (List.nodup_range N)
  · intro i hi
    cases N with
    | zero => omega
    | succ m =>
      have ht := run_experiment_tables uuids exp f m st hok
      refine ⟨?_, ?_, ?_⟩
      · rw [ht.1]
        simp only [Option.getD_some]
        rw [uuidRowCount_append, uuidRowCount_append]
        have hold := (hfresh i hi).2.1
        have hhdr := header_count_zero (uuids i) (hfresh i hi).1
          ((metricKeys (f 0)).map Cell.str) (by simp [metricKeys])
          st.metricsFile.isSome
        have hrows : uuidRowCount (uuids i)
            ((List.range (m + 1)).map
              (fun j => metricsRow (metricKeys (f 0)) (uuids j) (f j))) = 1 := by
          rw [map_eq_flatMap_singleton]
          have hb := uuidRowCount_blocks uuids
            (fun j => [metricsRow (metricKeys (f 0)) (uuids j) (f j)]) (m + 1) i hi
            (fun j hj hu => hinj j i hj hi hu)
            (fun j row hj hr => by
              simp only [List.mem_singleton] at hr
              rw [hr]
              exact metricsRow_head (uuids j) (f j) (f 0))
          simpa using hb
        rw [hold, hhdr, hrows]
      · rw [ht.2.1]
        simp only [Option.getD_some]
        rw [uuidRowCount_append, uuidRowCount_append]
        have hold := (hfresh i hi).2.2.1
        have hhdr := header_count_zero (uuids i) (hfresh i hi).1 profilesHeader rfl
          st.profilesFile.isSome
        have hrows := uuidRowCount_blocks uuids
          (fun j => summaryRows (uuids j) (f j)) (m + 1) i hi
          (fun j hj hu => hinj j i hj hi hu)
          (fun j row hj hr => summaryRows_head (uuids j) (f j) row hr)
        rw [hold, hhdr, hrows]
        have hlen : (summaryRows (uuids i) (f i)).length =
            ((f i).profiles.map ProfileRecord.func_name).dedup.length := by
          unfold summaryRows
          rw [List.length_map, aggregate_length]
        rw [hlen]
        omega
      · rw [ht.2.2]
        simp only [Option.getD_some]
        rw [uuidRowCount_append, uuidRowCount_append]
        have hold := (hfresh i hi).2.2.2
        have hhdr := header_count_zero (uuids i) (hfresh i hi).1 detailedHeader rfl
          st.detailedFile.isSome
        have hrows := uuidRowCount_blocks uuids
          (fun j => detailRows (uuids j) (f j)) (m + 1) i hi
          (fun j hj hu => hinj j i hj hi hu)
          (fun j row hj hr => detailRows_head (uuids j) (f j) row hr)
        rw [hold, hhdr, hrows]
        have hlen : (detailRows (uuids i) (f i)).length = (f i).profiles.length := by
          unfold detailRows
          rw [List.length_map]
        rw [hlen]
        omega

/-- Witness for C1: two trials, each with one profiled call of `f`, written
to fresh destination files; uuids `0` and `1`. -/
theorem C1_correlation_ids_witness :
    ((List.range 2).map (fun i => Nat.repr i)).Nodup ∧
    (∀ i, i < 2 →
      uuidRowCount (Nat.repr i)
        ((run_experiment (fun i => Nat.repr i)
          (fun _ => (Except.ok ⟨[("m", 1)], [⟨"f", 2, 3⟩]⟩ : Except Unit TrialResult)) 2
          ⟨none, none, none⟩).2.metricsFile.getD []) = 1 ∧
      uuidRowCount (Nat.repr i)
        ((run_experiment (fun i => Nat.repr i)
          (fun _ => (Except.ok ⟨[("m", 1)], [⟨"f", 2, 3⟩]⟩ : Except Unit TrialResult)) 2
          ⟨none, none, none⟩).2.profilesFile.getD []) =
        ((([⟨"f", 2, 3⟩] : List ProfileRecord).map ProfileRecord.func_name).dedup).length ∧
      uuidRowCount (Nat.repr i)
        ((run_experiment (fun i => Nat.repr i)
          (fun _ => (Except.ok ⟨[("m", 1)], [⟨"f", 2, 3⟩]⟩ : Except Unit TrialResult)) 2
          ⟨none, none, none⟩).2.detailedFile.getD []) =
        ([⟨"f", 2, 3⟩] : List ProfileRecord).length) :=
  C1_correlation_ids (fun i => Nat.repr i)
    (fun _ => (Except.ok ⟨[("m", 1)], [⟨"f", 2, 3⟩]⟩ : Except Unit TrialResult))
    (fun _ => ⟨[("m", 1)], [⟨"f", 2, 3⟩]⟩) 2 ⟨none, none, none⟩
    (fun _ _ => rfl)
    (fun i j hi hj h => by
      interval_cases i <;> interval_cases j <;>
        first
        | rfl
        | exact absurd h (by decide))
    (fun i hi => by
      refine ⟨?_, rfl, rfl, rfl⟩
      interval_cases i <;> decide)

/-- Witness for C3: one trial writing to a fresh destination produces the
pinned header followed by the trial's row. -/
theorem C3_metrics_schema_witness :
    (run_experiment (fun i => Nat.repr i)
        (fun _ => (Except.ok ⟨[("m", 1)], []⟩ : Except Unit TrialResult)) 1
        ⟨none, none, none⟩).2.metricsFile =
      some [[Cell.str "run_uuid", Cell.str "m"], [Cell.str "0", Cell.num 1]] := by
  have h := C3_metrics_schema (fun i => Nat.repr i)
    (fun _ => (Except.ok ⟨[("m", 1)], []⟩ : Except Unit TrialResult))
    (fun _ => ⟨[("m", 1)], []⟩) 1 ⟨none, none, none⟩ (by omega) (fun i _ => rfl)
  rw [h.1]
  decide

end Energytest
